import Mathlib

/-!
Shallow embedding of `copybara/integration/cram.py` (`main`), a bootstrap
shim around the external `cram` test-running library.

The shim, after deleting its own `main` binding and inserting the external
library's directory at the front of `sys.path`, does:

  args = args[1:]
  unused_opts, paths, unused_getusage = _main._parseopts(args)
  td = tempfile.mkdtemp(dir=os.environ['TEST_TMPDIR'])
  for p in paths:
      dest = os.path.join(td, os.path.basename(p))
      shutil.copyfile(p, dest)
      for i, x in enumerate(args):
          if x == p:
              args[i] = dest
  sys.exit(cram.main(args))

Modelling choices:
* The file system is an association list from path (String) to byte
  contents (List Nat), newest entry first, plus the list of created
  directories.  `shutil.copyfile` reads the source (I/O error when it is
  absent) and writes the destination, shadowing any previous content.
* The external collaborators are universally quantified parameters: the
  option parser `_main._parseopts` (only its returned path list matters to
  the shim), the delegated entry point `cram.main`, and the directory name
  `os.path.dirname(fakecram.__file__)`.
* `tempfile.mkdtemp(dir=root)` is modelled as joining `root` with an
  OS-chosen fresh name `tmpName` (a parameter) and recording the new
  directory; the lookup of `os.environ['TEST_TMPDIR']` raises `KeyError`
  when the variable is absent, modelled as the `envMissing` outcome, and
  it happens before the directory is created and before any copy.
* `os.path.basename` and `os.path.join` (POSIX) are embedded over the
  character list of the string: `basename p` is the suffix of `p` after
  the last '/', and `pathJoin a b` is `b` when `b` is absolute, else `a`
  concatenated with `b`, with a '/' inserted when `a` is nonempty and
  does not already end in '/'.
-/

namespace CramShim

/-- A file system: files as an association list from path to byte content
(most recent write first), and the set of created directories. -/
structure FS where
  files : List (String × List Nat)
  dirs : List String
deriving DecidableEq

/-- Look a path up in the file association list (first match wins, i.e. the
most recent write). -/
def findFile (name : String) : List (String × List Nat) → Option (List Nat)
  | [] => none
  | (k, v) :: rest => if name = k then some v else findFile name rest

/-- `os.path.basename` on POSIX: the suffix of the path after the last '/'
(the whole string when there is no '/'). -/
def basename (p : String) : String :=
  String.mk ((p.data.reverse.takeWhile (fun c => c != '/')).reverse)

/-- `os.path.join a b` on POSIX (two arguments): `b` if `b` is absolute,
else `a ++ b` if `a` is empty or ends with '/', else `a ++ "/" ++ b`. -/
def pathJoin (a b : String) : String :=
  if b.data.head? = some '/' then b
  else if a.data = [] ∨ a.data.reverse.head? = some '/' then
    String.mk (a.data ++ b.data)
  else String.mk (a.data ++ '/' :: b.data)

/-- The staged destination of a test-file path `p`:
`os.path.join(td, os.path.basename(p))`. -/
def destOf (td p : String) : String := pathJoin td (basename p)

/-- `shutil.copyfile fs src dest`: read `src` (error, i.e. `none`, when the
source cannot be read) and write its bytes to `dest`, overwriting. -/
def copyfile (fs : FS) (src dest : String) : Option FS :=
  match findFile src fs.files with
  | none => none
  | some b => some { fs with files := (dest, b) :: fs.files }

/-- The inner loop `for i, x in enumerate(args): if x == p: args[i] = dest`:
replace every entry string-equal to `p` by `dest`, in place. -/
def rewriteArgs (p dest : String) (args : List String) : List String :=
  args.map fun x => if x = p then dest else x

/-- Outcome of the staging loop: either the final file system and argument
list, or the path whose copy failed together with the file system and
argument list at that moment (the exception propagates, the partially
staged state persists). -/
inductive StageResult where
  | ok (fs : FS) (args : List String)
  | err (p : String) (fs : FS) (args : List String)
deriving DecidableEq

/-- The staging loop `for p in paths: dest = join(td, basename(p));
copyfile(p, dest); rewrite args`. -/
def stageLoop (td : String) (paths : List String) (fs : FS)
    (args : List String) : StageResult :=
  match paths with
  | [] => .ok fs args
  | p :: rest =>
    match copyfile fs p (destOf td p) with
    | none => .err p fs args
    | some fs2 => stageLoop td rest fs2 (rewriteArgs p (destOf td p) args)

/-- Errors the shim itself can hit: `KeyError` on the missing
`TEST_TMPDIR` variable, or an I/O error copying a path. -/
inductive ShimError where
  | envMissing
  | ioError (p : String)
deriving DecidableEq

/-- Observable interpreter state of the shim module: whether its own
`main` symbol is still bound (`del main`), the module search path
(`sys.path.insert(0, ...)`), and the file system. -/
structure ShimState where
  mainBound : Bool
  sysPath : List String
  fs : FS
deriving DecidableEq

/-- Result of running the shim: `sys.exit` with the delegated entry
point's return value, or an uncaught exception with the state and
argument list at that moment. -/
inductive MainResult where
  | exited (code : Int) (st : ShimState)
  | failed (e : ShimError) (st : ShimState) (argsAtError : List String)
deriving DecidableEq

/-- `os.environ[k]` as a lookup in an association-list environment. -/
def getEnv (env : List (String × String)) (k : String) : Option String :=
  match env with
  | [] => none
  | (k2, v) :: rest => if k = k2 then some v else getEnv rest k

/-- The shim's `main(argv)`: delete the module's own `main` binding,
insert the external library's directory at the front of `sys.path`, drop
the program name, parse the arguments with the delegated library's option
parser to get the test-file paths, read `TEST_TMPDIR` (KeyError when
absent, before any directory creation or copy), create the fresh
temporary directory `pathJoin root tmpName`, run the staging loop, and
exit with `cram.main` applied to the rewritten argument list. -/
def main (argv : List String) (env : List (String × String))
    (parseopts : List String → List String) (tmpName fakecramDir : String)
    (st : ShimState) (cramMain : List String → Int) : MainResult :=
  match getEnv env "TEST_TMPDIR" with
  | none =>
    .failed .envMissing
      { mainBound := false, sysPath := fakecramDir :: st.sysPath, fs := st.fs }
      (argv.drop 1)
  | some root =>
    match stageLoop (pathJoin root tmpName) (parseopts (argv.drop 1))
        { files := st.fs.files, dirs := pathJoin root tmpName :: st.fs.dirs }
        (argv.drop 1) with
    | .err p fsE argsE =>
      .failed (.ioError p)
        { mainBound := false, sysPath := fakecramDir :: st.sysPath, fs := fsE }
        argsE
    | .ok fs2 args2 =>
      .exited (cramMain args2)
        { mainBound := false, sysPath := fakecramDir :: st.sysPath, fs := fs2 }

/-! ### Concrete fixtures used to evaluate the model on closed inputs -/

/-- A file system holding one test file `/src/test1.t`. -/
def fsA : FS := { files := [("/src/test1.t", [10, 20])], dirs := [] }

/-- Initial interpreter state for the concrete runs. -/
def stA : ShimState := { mainBound := true, sysPath := ["lib"], fs := fsA }

/-- An environment that defines `TEST_TMPDIR`. -/
def envA : List (String × String) := [("TEST_TMPDIR", "/tmp/root")]

/-- An environment that does not define `TEST_TMPDIR`. -/
def envB : List (String × String) := [("HOME", "/home/u")]

/-- An option parse identifying `/src/test1.t` as the test-file path. -/
def parseA : List String → List String := fun _ => ["/src/test1.t"]

/-- An option parse identifying no test-file paths. -/
def parse0 : List String → List String := fun _ => []

/-- A delegated entry point returning a fixed non-zero exit code. -/
def cramConst : List String → Int := fun _ => 2

/-- A delegated entry point that returns 0 exactly when it receives the
argument list the staging scenario of the spec predicts. -/
def cram7 : List String → Int :=
  fun args => if args = ["--verbose", "/tmp/root/tmpXXXX/test1.t"] then 0 else 1

/-- The file system `fsA` after staging `/src/test1.t` into
`/tmp/root/tmpXXXX`. -/
def fsStagedA : FS :=
  { files := [("/tmp/root/tmpXXXX/test1.t", [10, 20]), ("/src/test1.t", [10, 20])],
    dirs := ["/tmp/root/tmpXXXX"] }

/-- Two test files with distinct directories but the same base filename
and different contents. -/
def fsB : FS := { files := [("/a/t.t", [1]), ("/b/t.t", [2])], dirs := [] }

/-- `fsB` after staging both `/a/t.t` and `/b/t.t` under `/tmp/td`: the
second copy shadows the first at `/tmp/td/t.t`. -/
def fsB2 : FS :=
  { files := [("/tmp/td/t.t", [2]), ("/tmp/td/t.t", [1]),
              ("/a/t.t", [1]), ("/b/t.t", [2])],
    dirs := [] }

/-- Two test files with distinct base filenames. -/
def fsC : FS := { files := [("/a/one.t", [1]), ("/b/two.t", [2])], dirs := [] }

/-- `fsC` after staging both files under `/tmp/td`. -/
def fsC2 : FS :=
  { files := [("/tmp/td/two.t", [2]), ("/tmp/td/one.t", [1]),
              ("/a/one.t", [1]), ("/b/two.t", [2])],
    dirs := [] }

/-- A file system holding `/a/x.t` only. -/
def fsDup : FS := { files := [("/a/x.t", [5])], dirs := [] }

/-- `fsA` after staging `/src/test1.t` under `/tmp/td` (no new dirs
recorded, staging loop only). -/
def fsD : FS :=
  { files := [("/tmp/td/test1.t", [10, 20]), ("/src/test1.t", [10, 20])],
    dirs := [] }

/-! ### Path lemmas -/

lemma findFile_cons (name k : String) (v : List Nat)
    (rest : List (String × List Nat)) :
    findFile name ((k, v) :: rest) = if name = k then some v
      else findFile name rest := rfl

lemma pred_of_mem_takeWhile {p : Char → Bool} :
    ∀ {l : List Char} {x : Char}, x ∈ l.takeWhile p → p x = true := by
  intro l
  induction l with
  | nil => intro x h; simp [List.takeWhile] at h
  | cons a l ih =>
    intro x h
    rw [List.takeWhile_cons] at h
    by_cases hpa : p a = true
    · rw [if_pos hpa] at h
      rcases List.mem_cons.mp h with h | h
      · exact h ▸ hpa
      · exact ih h
    · rw [if_neg hpa] at h
      simp at h

lemma takeWhile_append_all {p : Char → Bool} :
    ∀ (l₁ l₂ : List Char), (∀ x ∈ l₁, p x = true) →
      (l₁ ++ l₂).takeWhile p = l₁ ++ l₂.takeWhile p := by
  intro l₁ l₂ h
  induction l₁ with
  | nil => simp
  | cons a l ih =>
    have ha : p a = true := h a (List.mem_cons_self a l)
    simp only [List.cons_append, List.takeWhile_cons, ha, if_true]
    rw [ih fun x hx => h x (List.mem_cons_of_mem a hx)]

lemma slash_not_mem_basename (p : String) : '/' ∉ (basename p).data := by
  intro h
  have h2 : '/' ∈ (p.data.reverse.takeWhile (fun c => c != '/')) := by
    simpa [basename] using h
  have := pred_of_mem_takeWhile h2
  simp at this

lemma basename_pathJoin (a b : String) (hb : '/' ∉ b.data) :
    basename (pathJoin a b) = b := by
  have hball : ∀ x ∈ b.data.reverse, (x != '/') = true := by
    intro x hx
    have : x ∈ b.data := List.mem_reverse.mp hx
    have hxne : x ≠ '/' := fun he => hb (he ▸ this)
    simpa using hxne
  have hhead : ¬ (b.data.head? = some '/') := by
    intro h
    exact hb (List.mem_of_mem_head? (by simp [h]))
  unfold pathJoin
  rw [if_neg hhead]
  by_cases hcase : a.data = [] ∨ a.data.reverse.head? = some '/'
  · rw [if_pos hcase]
    unfold basename
    rcases hcase with hnil | hslash
    · simp only [hnil, List.nil_append]
      have hself := takeWhile_append_all b.data.reverse [] hball
      simp only [List.append_nil, List.takeWhile_nil] at hself
      show String.mk _ = b
      rw [hself]
      simp
    · rcases hrev : a.data.reverse with _ | ⟨c, t⟩
      · rw [hrev] at hslash; simp at hslash
      · have hc : c = '/' := by rw [hrev] at hslash; simpa using hslash
        show String.mk _ = b
        rw [show (String.mk (a.data ++ b.data)).data = a.data ++ b.data from rfl]
        rw [List.reverse_append, hrev, hc]
        rw [takeWhile_append_all _ _ hball]
        rw [List.takeWhile_cons]
        simp
  · rw [if_neg hcase]
    unfold basename
    show String.mk _ = b
    rw [show (String.mk (a.data ++ '/' :: b.data)).data = a.data ++ '/' :: b.data
      from rfl]
    rw [List.reverse_append, List.reverse_cons, List.append_assoc]
    rw [takeWhile_append_all _ _ hball]
    rw [List.singleton_append, List.takeWhile_cons]
    simp

lemma destOf_idem (td p : String) : destOf td (destOf td p) = destOf td p := by
  unfold destOf
  rw [basename_pathJoin td (basename p) (slash_not_mem_basename p)]

/-! ### Staging-loop lemmas -/

lemma staged_step_fun (td r : String) (rest : List String) (x : String) :
    ((fun y => if y ∈ rest then destOf td y else y)
      ((fun y => if y = r then destOf td r else y) x)) =
    (if x ∈ r :: rest then destOf td x else x) := by
  by_cases hxr : x = r
  · subst hxr
    simp only [if_pos rfl, List.mem_cons, true_or, if_true]
    by_cases hd : destOf td x ∈ rest
    · rw [if_pos hd, destOf_idem]
    · rw [if_neg hd]
  · simp only [if_neg hxr]
    by_cases hx : x ∈ rest
    · simp [hx]
    · simp [hx, hxr]

lemma stageLoop_args_ok (td : String) :
    ∀ (paths : List String) (fs : FS) (args : List String) (fs2 : FS)
      (args2 : List String),
      stageLoop td paths fs args = .ok fs2 args2 →
      args2 = args.map fun x => if x ∈ paths then destOf td x else x := by
  intro paths
  induction paths with
  | nil =>
    intro fs args fs2 args2 h
    simp only [stageLoop, StageResult.ok.injEq] at h
    rw [← h.2]
    simp
  | cons p rest ih =>
    intro fs args fs2 args2 h
    simp only [stageLoop] at h
    cases hcopy : copyfile fs p (destOf td p) with
    | none => rw [hcopy] at h; simp at h
    | some fs1 =>
      rw [hcopy] at h
      rw [ih fs1 (rewriteArgs p (destOf td p) args) fs2 args2 h]
      unfold rewriteArgs
      rw [List.map_map]
      rw [show ((fun y => if y ∈ rest then destOf td y else y) ∘
          fun y => if y = p then destOf td p else y) =
          fun x => if x ∈ p :: rest then destOf td x else x
        from funext fun x => staged_step_fun td p rest x]

lemma stageLoop_files_other (td x : String) :
    ∀ (paths : List String) (fs : FS) (args : List String) (fs2 : FS)
      (args2 : List String),
      (∀ q ∈ paths, destOf td q ≠ x) →
      stageLoop td paths fs args = .ok fs2 args2 →
      findFile x fs2.files = findFile x fs.files := by
  intro paths
  induction paths with
  | nil =>
    intro fs args fs2 args2 _ h
    simp only [stageLoop, StageResult.ok.injEq] at h
    rw [← h.1]
  | cons p rest ih =>
    intro fs args fs2 args2 hq h
    simp only [stageLoop] at h
    cases hcopy : copyfile fs p (destOf td p) with
    | none => rw [hcopy] at h; simp at h
    | some fs1 =>
      rw [hcopy] at h
      have h1 := ih fs1 (rewriteArgs p (destOf td p) args) fs2 args2
        (fun q hqr => hq q (List.mem_cons_of_mem p hqr)) h
      rw [h1]
      unfold copyfile at hcopy
      cases hf : findFile p fs.files with
      | none => rw [hf] at hcopy; simp at hcopy
      | some b =>
        rw [hf] at hcopy
        simp only [Option.some.injEq] at hcopy
        rw [← hcopy]
        show findFile x ((destOf td p, b) :: fs.files) = findFile x fs.files
        rw [findFile_cons, if_neg (Ne.symm (hq p (List.mem_cons_self p rest)))]

lemma stageLoop_files_last (td p : String) :
    ∀ (l₁ l₂ : List String) (fs : FS) (args : List String) (fs2 : FS)
      (args2 : List String),
      (∀ r ∈ l₁, destOf td r ≠ p) →
      (∀ q ∈ l₂, destOf td q ≠ destOf td p) →
      stageLoop td (l₁ ++ p :: l₂) fs args = .ok fs2 args2 →
      findFile (destOf td p) fs2.files = findFile p fs.files := by
  intro l₁
  induction l₁ with
  | nil =>
    intro l₂ fs args fs2 args2 _ hl₂ h
    simp only [List.nil_append, stageLoop] at h
    cases hcopy : copyfile fs p (destOf td p) with
    | none => rw [hcopy] at h; simp at h
    | some fs1 =>
      rw [hcopy] at h
      have h1 := stageLoop_files_other td (destOf td p) l₂ fs1
        (rewriteArgs p (destOf td p) args) fs2 args2 hl₂ h
      rw [h1]
      unfold copyfile at hcopy
      cases hf : findFile p fs.files with
      | none => rw [hf] at hcopy; simp at hcopy
      | some b =>
        rw [hf] at hcopy
        simp only [Option.some.injEq] at hcopy
        rw [← hcopy]
        show findFile (destOf td p) ((destOf td p, b) :: fs.files) = some b
        rw [findFile_cons, if_pos rfl]
  | cons r l₁ ih =>
    intro l₂ fs args fs2 args2 hl₁ hl₂ h
    simp only [List.cons_append, stageLoop] at h
    cases hcopy : copyfile fs r (destOf td r) with
    | none => rw [hcopy] at h; simp at h
    | some fs1 =>
      rw [hcopy] at h
      have h1 := ih l₂ fs1 (rewriteArgs r (destOf td r) args) fs2 args2
        (fun s hs => hl₁ s (List.mem_cons_of_mem r hs)) hl₂ h
      rw [h1]
      unfold copyfile at hcopy
      cases hf : findFile r fs.files with
      | none => rw [hf] at hcopy; simp at hcopy
      | some b =>
        rw [hf] at hcopy
        simp only [Option.some.injEq] at hcopy
        rw [← hcopy]
        show findFile p ((destOf td r, b) :: fs.files) = findFile p fs.files
        rw [findFile_cons, if_neg (Ne.symm (hl₁ r (List.mem_cons_self r l₁)))]

lemma stageLoop_err_split (td : String) :
    ∀ (paths : List String) (fs : FS) (args : List String) (pE : String)
      (fsE : FS) (argsE : List String),
      stageLoop td paths fs args = .err pE fsE argsE →
      ∃ l₁ l₂, paths = l₁ ++ pE :: l₂ ∧
        stageLoop td l₁ fs args = .ok fsE argsE ∧
        findFile pE fsE.files = none ∧
        argsE = args.map fun x => if x ∈ l₁ then destOf td x else x := by
  intro paths
  induction paths with
  | nil =>
    intro fs args pE fsE argsE h
    simp [stageLoop] at h
  | cons p rest ih =>
    intro fs args pE fsE argsE h
    simp only [stageLoop] at h
    cases hcopy : copyfile fs p (destOf td p) with
    | none =>
      rw [hcopy] at h
      simp only [StageResult.err.injEq] at h
      obtain ⟨hp, hfs, hargs⟩ := h
      refine ⟨[], rest, by rw [hp, List.nil_append], ?_, ?_, ?_⟩
      · simp only [stageLoop]
        rw [hfs, hargs]
      · unfold copyfile at hcopy
        cases hf : findFile p fs.files with
        | none => rw [← hfs, ← hp]; exact hf
        | some b => rw [hf] at hcopy; simp at hcopy
      · rw [← hargs]
        simp
    | some fs1 =>
      rw [hcopy] at h
      obtain ⟨l₁, l₂, hsplit, hok, hnone, hargs⟩ :=
        ih fs1 (rewriteArgs p (destOf td p) args) pE fsE argsE h
      refine ⟨p :: l₁, l₂, by rw [hsplit, List.cons_append], ?_, hnone, ?_⟩
      · simp only [stageLoop]
        rw [hcopy]
        exact hok
      · rw [hargs]
        unfold rewriteArgs
        rw [List.map_map]
        rw [show ((fun y => if y ∈ l₁ then destOf td y else y) ∘
            fun y => if y = p then destOf td p else y) =
            fun x => if x ∈ p :: l₁ then destOf td x else x
          from funext fun x => staged_step_fun td p l₁ x]

/-! ### Lemmas about `main` -/

lemma main_env_missing (argv : List String) (env : List (String × String))
    (parseopts : List String → List String) (tmpName fakecramDir : String)
    (st : ShimState) (cramMain : List String → Int)
    (henv : getEnv env "TEST_TMPDIR" = none) :
    main argv env parseopts tmpName fakecramDir st cramMain =
      .failed .envMissing
        { mainBound := false, sysPath := fakecramDir :: st.sysPath, fs := st.fs }
        (argv.drop 1) := by
  unfold main
  rw [henv]

lemma main_stage_ok (argv : List String) (env : List (String × String))
    (parseopts : List String → List String) (tmpName fakecramDir root : String)
    (st : ShimState) (cramMain : List String → Int) (fs2 : FS)
    (args2 : List String)
    (henv : getEnv env "TEST_TMPDIR" = some root)
    (hok : stageLoop (pathJoin root tmpName) (parseopts (argv.drop 1))
      { files := st.fs.files, dirs := pathJoin root tmpName :: st.fs.dirs }
      (argv.drop 1) = .ok fs2 args2) :
    main argv env parseopts tmpName fakecramDir st cramMain =
      .exited (cramMain args2)
        { mainBound := false, sysPath := fakecramDir :: st.sysPath, fs := fs2 } := by
  unfold main
  rw [henv]
  dsimp only
  rw [hok]

lemma main_zero_paths (argv : List String) (env : List (String × String))
    (parseopts : List String → List String) (tmpName fakecramDir root : String)
    (st : ShimState) (cramMain : List String → Int)
    (hz : parseopts (argv.drop 1) = [])
    (henv : getEnv env "TEST_TMPDIR" = some root) :
    main argv env parseopts tmpName fakecramDir st cramMain =
      .exited (cramMain (argv.drop 1))
        { mainBound := false, sysPath := fakecramDir :: st.sysPath,
          fs := { files := st.fs.files,
                  dirs := pathJoin root tmpName :: st.fs.dirs } } :=
  main_stage_ok argv env parseopts tmpName fakecramDir root st cramMain
    { files := st.fs.files, dirs := pathJoin root tmpName :: st.fs.dirs }
    (argv.drop 1) henv (by rw [hz]; rfl)

/-! ### Claims -/

/-- C1: for every argument list, the list the shim passes to the delegated
entry point has the same length and order as the input list after dropping
the program name; every entry string-equal to a test-file path identified
by the option parser is replaced by that path's staged path
`destOf td p`, and every other entry keeps its value and position. -/
theorem claim1_stage_preserves_positions (argv : List String)
    (env : List (String × String)) (parseopts : List String → List String)
    (tmpName fakecramDir root : String) (st : ShimState)
    (cramMain : List String → Int) (fs2 : FS) (args2 : List String)
    (henv : getEnv env "TEST_TMPDIR" = some root)
    (hok : stageLoop (pathJoin root tmpName) (parseopts (argv.drop 1))
      { files := st.fs.files, dirs := pathJoin root tmpName :: st.fs.dirs }
      (argv.drop 1) = .ok fs2 args2) :
    main argv env parseopts tmpName fakecramDir st cramMain =
      .exited (cramMain args2)
        { mainBound := false, sysPath := fakecramDir :: st.sysPath,
          fs := fs2 } ∧
    args2.length = (argv.drop 1).length ∧
    args2 = (argv.drop 1).map fun x =>
      if x ∈ parseopts (argv.drop 1) then destOf (pathJoin root tmpName) x
      else x := by
  have hargs := stageLoop_args_ok (pathJoin root tmpName) _ _ _ _ _ hok
  exact ⟨main_stage_ok argv env parseopts tmpName fakecramDir root st cramMain
      fs2 args2 henv hok,
    by rw [hargs, List.length_map], hargs⟩

theorem claim1_witness :
    main ["cram.py", "--verbose", "/src/test1.t"] envA parseA "tmpXXXX"
        "/ext/cram" stA cramConst =
      .exited 2 { mainBound := false, sysPath := ["/ext/cram", "lib"],
                  fs := fsStagedA } ∧
    (["--verbose", "/tmp/root/tmpXXXX/test1.t"] : List String).length =
      (["--verbose", "/src/test1.t"] : List String).length ∧
    (["--verbose", "/tmp/root/tmpXXXX/test1.t"] : List String) =
      (["--verbose", "/src/test1.t"] : List String).map fun x =>
        if x ∈ ["/src/test1.t"] then destOf "/tmp/root/tmpXXXX" x else x := by
  have h := claim1_stage_preserves_positions
    ["cram.py", "--verbose", "/src/test1.t"] envA parseA "tmpXXXX" "/ext/cram"
    "/tmp/root" stA cramConst fsStagedA
    ["--verbose", "/tmp/root/tmpXXXX/test1.t"] (by decide) (by decide)
  exact h

/-- C2: the shim's exit status is exactly the value returned by the
delegated entry point `cramMain` on the rewritten argument list; no
remapping. -/
theorem claim2_exit_code_passthrough (argv : List String)
    (env : List (String × String)) (parseopts : List String → List String)
    (tmpName fakecramDir root : String) (st : ShimState)
    (cramMain : List String → Int) (fs2 : FS) (args2 : List String)
    (henv : getEnv env "TEST_TMPDIR" = some root)
    (hok : stageLoop (pathJoin root tmpName) (parseopts (argv.drop 1))
      { files := st.fs.files, dirs := pathJoin root tmpName :: st.fs.dirs }
      (argv.drop 1) = .ok fs2 args2) :
    ∀ c : Int, cramMain args2 = c →
      main argv env parseopts tmpName fakecramDir st cramMain =
        .exited c
          { mainBound := false, sysPath := fakecramDir :: st.sysPath,
            fs := fs2 } := by
  intro c hc
  rw [← hc]
  exact main_stage_ok argv env parseopts tmpName fakecramDir root st cramMain
    fs2 args2 henv hok

theorem claim2_witness :
    main ["cram.py", "--verbose", "/src/test1.t"] envA parseA "tmpXXXX"
        "/ext/cram" stA cramConst =
      .exited 2 { mainBound := false, sysPath := ["/ext/cram", "lib"],
                  fs := fsStagedA } :=
  claim2_exit_code_passthrough
    ["cram.py", "--verbose", "/src/test1.t"] envA parseA "tmpXXXX" "/ext/cram"
    "/tmp/root" stA cramConst fsStagedA
    ["--verbose", "/tmp/root/tmpXXXX/test1.t"] (by decide) (by decide)
    2 (by decide)

/-- C3: when the option parser identifies zero test-file paths, the shim
hands the argument list to the delegated entry point unchanged, while the
name-collision-avoidance step (`del main`), the search-path insertion and
the temporary-directory creation still execute. -/
theorem claim3_identity_on_zero_paths (argv : List String)
    (env : List (String × String)) (parseopts : List String → List String)
    (tmpName fakecramDir root : String) (st : ShimState)
    (cramMain : List String → Int)
    (hz : parseopts (argv.drop 1) = [])
    (henv : getEnv env "TEST_TMPDIR" = some root) :
    main argv env parseopts tmpName fakecramDir st cramMain =
      .exited (cramMain (argv.drop 1))
        { mainBound := false, sysPath := fakecramDir :: st.sysPath,
          fs := { files := st.fs.files,
                  dirs := pathJoin root tmpName :: st.fs.dirs } } :=
  main_zero_paths argv env parseopts tmpName fakecramDir root st cramMain
    hz henv

theorem claim3_witness :
    main ["cram.py", "--verbose"] envA parse0 "tmpXXXX" "/ext/cram" stA
        cramConst =
      .exited 2 { mainBound := false, sysPath := ["/ext/cram", "lib"],
                  fs := { files := fsA.files, dirs := ["/tmp/root/tmpXXXX"] } } :=
  claim3_identity_on_zero_paths ["cram.py", "--verbose"] envA parse0 "tmpXXXX"
    "/ext/cram" "/tmp/root" stA cramConst (by decide) (by decide)

/-- C4: when a test-file path `p` occurs at several positions of the
argument list, after a successful staging loop all those positions hold
the same single staged path `destOf td p`. -/
theorem claim4_consistent_substitution (td p : String) (paths : List String)
    (fs : FS) (args : List String) (fs2 : FS) (args2 : List String)
    (i j : Nat)
    (hok : stageLoop td paths fs args = .ok fs2 args2)
    (hp : p ∈ paths) (hi : args[i]? = some p) (hj : args[j]? = some p) :
    args2[i]? = some (destOf td p) ∧ args2[j]? = some (destOf td p) := by
  have hargs := stageLoop_args_ok td paths fs args fs2 args2 hok
  subst hargs
  rw [List.getElem?_map, hi, List.getElem?_map, hj]
  simp [hp]

theorem claim4_witness :
    (["/tmp/td/x.t", "-v", "/tmp/td/x.t"] : List String)[0]? =
      some (destOf "/tmp/td" "/a/x.t") ∧
    (["/tmp/td/x.t", "-v", "/tmp/td/x.t"] : List String)[2]? =
      some (destOf "/tmp/td" "/a/x.t") :=
  claim4_consistent_substitution "/tmp/td" "/a/x.t" ["/a/x.t"] fsDup
    ["/a/x.t", "-v", "/a/x.t"]
    { files := [("/tmp/td/x.t", [5]), ("/a/x.t", [5])], dirs := [] }
    ["/tmp/td/x.t", "-v", "/tmp/td/x.t"] 0 2
    (by decide) (by decide) (by decide) (by decide)

/-- C5 counterexample: two identified test-file paths with the same base
filename stage to the same destination, so after staging completes the
staged file for `/a/t.t` holds the bytes of `/b/t.t`, not its own
original bytes — the round-trip claim fails as stated. -/
theorem claim5_counterexample :
    basename "/a/t.t" = basename "/b/t.t" ∧
    stageLoop "/tmp/td" ["/a/t.t", "/b/t.t"] fsB [] = .ok fsB2 [] ∧
    findFile (destOf "/tmp/td" "/a/t.t") fsB2.files = some [2] ∧
    findFile "/a/t.t" fsB.files = some [1] ∧
    findFile (destOf "/tmp/td" "/a/t.t") fsB2.files ≠
      findFile "/a/t.t" fsB.files := by decide

/-- C5 (amended): provided the identified test-file paths have pairwise
distinct staged destinations (in particular pairwise distinct base
filenames) and no identified path is itself a staged destination, the
byte content of each staged file after a successful staging loop equals
the byte content of the original file. -/
theorem claim5_roundtrip_distinct_dests (td : String) (paths : List String)
    (fs : FS) (args : List String) (fs2 : FS) (args2 : List String)
    (hnd : ∀ a ∈ paths, ∀ q ∈ paths, destOf td q ≠ a)
    (hdd : (paths.map (destOf td)).Nodup)
    (hok : stageLoop td paths fs args = .ok fs2 args2) :
    ∀ p ∈ paths, findFile (destOf td p) fs2.files = findFile p fs.files := by
  intro p hp
  obtain ⟨l₁, l₂, rfl⟩ := List.append_of_mem hp
  apply stageLoop_files_last td p l₁ l₂ fs args fs2 args2 ?h1 ?h2 hok
  case h1 =>
    intro r hr
    exact hnd p hp r (by simp [hr])
  case h2 =>
    intro q hq
    have hmap : (l₁.map (destOf td) ++
        destOf td p :: l₂.map (destOf td)).Nodup := by
      simpa using hdd
    have h2 := (List.nodup_cons.mp hmap.of_append_right).1
    intro he
    exact h2 (he ▸ List.mem_map_of_mem (destOf td) hq)

theorem claim5_witness :
    findFile (destOf "/tmp/td" "/a/one.t") fsC2.files =
      findFile "/a/one.t" fsC.files :=
  claim5_roundtrip_distinct_dests "/tmp/td" ["/a/one.t", "/b/two.t"] fsC []
    fsC2 [] (by decide) (by decide) (by decide) "/a/one.t" (by decide)

/-- C6: when `TEST_TMPDIR` is absent from the environment, the shim fails
with the configuration error `envMissing`, with the file system untouched
(no directory created, no file copied). -/
theorem claim6_env_missing_fatal (argv : List String)
    (env : List (String × String)) (parseopts : List String → List String)
    (tmpName fakecramDir : String) (st : ShimState)
    (cramMain : List String → Int)
    (henv : getEnv env "TEST_TMPDIR" = none) :
    main argv env parseopts tmpName fakecramDir st cramMain =
      .failed .envMissing
        { mainBound := false, sysPath := fakecramDir :: st.sysPath,
          fs := st.fs }
        (argv.drop 1) :=
  main_env_missing argv env parseopts tmpName fakecramDir st cramMain henv

theorem claim6_witness :
    main ["cram.py", "/src/test1.t"] envB parseA "tmpXXXX" "/ext/cram" stA
        cramConst =
      .failed .envMissing
        { mainBound := false, sysPath := ["/ext/cram", "lib"], fs := fsA }
        ["/src/test1.t"] :=
  claim6_env_missing_fatal ["cram.py", "/src/test1.t"] envB parseA "tmpXXXX"
    "/ext/cram" stA cramConst (by decide)

/-- C7: with args `["--verbose", "/src/test1.t"]` and temp root
`/tmp/root`, staging creates the directory `/tmp/root/tmpXXXX`, copies
`/src/test1.t` (bytes `[10, 20]`) to `/tmp/root/tmpXXXX/test1.t` — the
join of the fresh temporary directory with the base filename — and
delegates with `["--verbose", "/tmp/root/tmpXXXX/test1.t"]` (witnessed by
`cram7`, which returns 0 exactly on that list). -/
theorem claim7_staging_scenario :
    pathJoin "/tmp/root" "tmpXXXX" = "/tmp/root/tmpXXXX" ∧
    destOf "/tmp/root/tmpXXXX" "/src/test1.t" = "/tmp/root/tmpXXXX/test1.t" ∧
    main ["cram.py", "--verbose", "/src/test1.t"] envA parseA "tmpXXXX"
        "/ext/cram" stA cram7 =
      .exited 0 { mainBound := false, sysPath := ["/ext/cram", "lib"],
                  fs := fsStagedA } := by decide

/-- C8: when the copy of a path fails with an I/O error, the shim performs
no retry and no rollback: the state at the error is exactly the state
after successfully staging the prefix of paths before the failing one —
their staged copies are still on disk and the argument entries rewritten
for them stay rewritten. -/
theorem claim8_no_rollback_on_io_error (td : String) (paths : List String)
    (fs : FS) (args : List String) (pE : String) (fsE : FS)
    (argsE : List String)
    (herr : stageLoop td paths fs args = .err pE fsE argsE) :
    ∃ l₁ l₂, paths = l₁ ++ pE :: l₂ ∧
      stageLoop td l₁ fs args = .ok fsE argsE ∧
      findFile pE fsE.files = none ∧
      argsE = args.map fun x => if x ∈ l₁ then destOf td x else x :=
  stageLoop_err_split td paths fs args pE fsE argsE herr

theorem claim8_witness :
    ∃ l₁ l₂, (["/src/test1.t", "/missing.t"] : List String) =
        l₁ ++ "/missing.t" :: l₂ ∧
      stageLoop "/tmp/td" l₁ fsA ["/src/test1.t", "/missing.t"] =
        .ok fsD ["/tmp/td/test1.t", "/missing.t"] ∧
      findFile "/missing.t" fsD.files = none ∧
      (["/tmp/td/test1.t", "/missing.t"] : List String) =
        (["/src/test1.t", "/missing.t"] : List String).map fun x =>
          if x ∈ l₁ then destOf "/tmp/td" x else x :=
  claim8_no_rollback_on_io_error "/tmp/td" ["/src/test1.t", "/missing.t"]
    fsA ["/src/test1.t", "/missing.t"] "/missing.t" fsD
    ["/tmp/td/test1.t", "/missing.t"] (by decide)

/-- C9: two distinct identified test-file paths with the same base
filename stage to the same destination; the copy of the later-processed
path overwrites the staged content of the earlier one, so the earlier
path's staged file no longer holds the earlier original's bytes. -/
theorem claim9_basename_collision_overwrite (td p q : String)
    (l₁ l₂ l₃ : List String) (fs : FS) (args : List String) (fs2 : FS)
    (args2 : List String)
    (hpq : p ≠ q) (hbn : basename p = basename q)
    (hnd : ∀ a ∈ l₁ ++ p :: l₂ ++ q :: l₃,
      ∀ r ∈ l₁ ++ p :: l₂ ++ q :: l₃, destOf td r ≠ a)
    (hlast : ∀ r ∈ l₃, destOf td r ≠ destOf td q)
    (hok : stageLoop td (l₁ ++ p :: l₂ ++ q :: l₃) fs args = .ok fs2 args2)
    (hneq : findFile p fs.files ≠ findFile q fs.files) :
    destOf td p = destOf td q ∧
    findFile (destOf td p) fs2.files = findFile q fs.files ∧
    findFile (destOf td p) fs2.files ≠ findFile p fs.files := by
  have hdq : destOf td p = destOf td q := by unfold destOf; rw [hbn]
  have hq1 : ∀ r ∈ l₁ ++ p :: l₂, destOf td r ≠ q := by
    intro r hr
    apply hnd q (by simp) r
    simp only [List.mem_append, List.mem_cons] at hr ⊢
    tauto
  have h := stageLoop_files_last td q (l₁ ++ p :: l₂) l₃ fs args fs2 args2
    hq1 hlast hok
  rw [hdq]
  exact ⟨rfl, h, h ▸ Ne.symm hneq⟩

theorem claim9_witness :
    destOf "/tmp/td" "/a/t.t" = destOf "/tmp/td" "/b/t.t" ∧
    findFile (destOf "/tmp/td" "/a/t.t") fsB2.files =
      findFile "/b/t.t" fsB.files ∧
    findFile (destOf "/tmp/td" "/a/t.t") fsB2.files ≠
      findFile "/a/t.t" fsB.files :=
  claim9_basename_collision_overwrite "/tmp/td" "/a/t.t" "/b/t.t" [] [] []
    fsB [] fsB2 [] (by decide) (by decide) (by decide) (by decide)
    (by decide) (by decide)

/-- C10: whatever the argument list — including when the option parser
identifies zero test-file paths — the shim reads `TEST_TMPDIR` and
creates the fresh temporary directory before delegating, so absence of
the variable is a fatal configuration error even with nothing to stage,
and presence records the new directory in the file system. -/
theorem claim10_env_read_even_without_paths (argv : List String)
    (env : List (String × String)) (parseopts : List String → List String)
    (tmpName fakecramDir : String) (st : ShimState)
    (cramMain : List String → Int)
    (hz : parseopts (argv.drop 1) = []) :
    (getEnv env "TEST_TMPDIR" = none →
      main argv env parseopts tmpName fakecramDir st cramMain =
        .failed .envMissing
          { mainBound := false, sysPath := fakecramDir :: st.sysPath,
            fs := st.fs }
          (argv.drop 1)) ∧
    (∀ root, getEnv env "TEST_TMPDIR" = some root →
      main argv env parseopts tmpName fakecramDir st cramMain =
        .exited (cramMain (argv.drop 1))
          { mainBound := false, sysPath := fakecramDir :: st.sysPath,
            fs := { files := st.fs.files,
                    dirs := pathJoin root tmpName :: st.fs.dirs } }) :=
  ⟨fun henv =>
    main_env_missing argv env parseopts tmpName fakecramDir st cramMain henv,
   fun root henv =>
    main_zero_paths argv env parseopts tmpName fakecramDir root st cramMain
      hz henv⟩

theorem claim10_witness :
    main ["cram.py"] envB parse0 "tmpXXXX" "/ext/cram" stA cramConst =
      .failed .envMissing
        { mainBound := false, sysPath := ["/ext/cram", "lib"], fs := fsA }
        [] ∧
    main ["cram.py"] envA parse0 "tmpXXXX" "/ext/cram" stA cramConst =
      .exited 2
        { mainBound := false, sysPath := ["/ext/cram", "lib"],
          fs := { files := fsA.files, dirs := ["/tmp/root/tmpXXXX"] } } :=
  ⟨(claim10_env_read_even_without_paths ["cram.py"] envB parse0 "tmpXXXX"
      "/ext/cram" stA cramConst (by decide)).1 (by decide),
   (claim10_env_read_even_without_paths ["cram.py"] envA parse0 "tmpXXXX"
      "/ext/cram" stA cramConst (by decide)).2 "/tmp/root" (by decide)⟩

end CramShim
